import Mathlib

/-!
Shallow embedding of `src/ls8/cpu.py` — an LS-8 byte-code virtual machine.

Modelling conventions:
* Python's arbitrary-precision integers are modelled by `Nat` for register,
  memory, flag and pc values.  Every value the program ever stores in a
  register or memory cell is non-negative (loads parse binary literals,
  ALU results are masked with `& 0xff`, stack ops move previously stored
  bytes), so `Nat` is adequate; the one negative intermediate, Python's
  `~x` inside the NOT branch, is `-x-1` and is modelled through `Int`
  before the mask is applied.
* Python's `x & 0xff` mask on a non-negative value is `x % 256`.
* Python list indexing raises `IndexError` when the index is out of
  range; reads and writes are therefore partial (`Option`), and an
  out-of-range access aborts the interpreter with a `crash` outcome
  (an uncaught exception kills the process).
* `sys.exit(code)` is the `exited code` outcome; `print` calls append
  abstract events to an output log instead of formatting strings.
-/

namespace LS8

/-! ### Constants (cpu.py lines 5-76) -/

/-- Register index reserved for the end-of-program address. -/
def PROGRAM_END : Nat := 0x04

/-- Register index reserved for the stack pointer. -/
def SP : Nat := 0x07

def ADD : Nat := 0b10100000
def MUL : Nat := 0b10100010
def CMP : Nat := 0b10100111
def AND : Nat := 0b10101000
def NOT : Nat := 0b01101001
def OR : Nat := 0b10101010
def XOR : Nat := 0b10101011
def SHL : Nat := 0b10101100
def SHR : Nat := 0b10101101

def JMP : Nat := 0b01010100
def JEQ : Nat := 0b01010101
def JNE : Nat := 0b01010110

def HLT : Nat := 0b00000001
def LDI : Nat := 0b10000010
def PUSH : Nat := 0b01000101
def POP : Nat := 0b01000110
def PRN : Nat := 0b01000111

def ONE_BYTE : Nat := 0xff
def ONE_BIT : Nat := 0x01
def OP_SETS_INST : Nat := 0x04
def NUM_OPERANDS : Nat := 0x06
def CMP_CLEAR : Nat := 0b11111000

/-- Flag bit `EQ` in cpu.py; renamed to avoid Lean's `EQ`-like class names. -/
def FL_EQ : Nat := 0x01

/-- Flag bit `GT` in cpu.py; renamed to avoid Lean's order class `GT`. -/
def FL_GT : Nat := 0x02

/-- Flag bit `LT` in cpu.py; renamed to avoid Lean's order class `LT`. -/
def FL_LT : Nat := 0x04

def STACK_HEAD : Nat := 0xf4

def DONE : Nat := 0
def UNKNOWN_INSTRUCTION : Nat := 1
def IO_ERROR : Nat := 2
def STACK_OVERFLOW : Nat := 3

/-! ### Machine state -/

/-- One abstract line of printed output.  The emulator prints with
`print`; we record which print statement fired and the data it showed,
without modelling the string formatting. -/
inductive Evt where
  /-- `print("Running...")` at the top of `run`. -/
  | runningMsg : Evt
  /-- `print(self.reg[operands[0]])` in `_prn`. -/
  | prn (v : Nat) : Evt
  /-- The line printed by `trace()`: pc, the three bytes at pc..pc+2,
  and the eight register values. -/
  | traceLine (pc b0 b1 b2 : Nat) (regs : List Nat) : Evt
  /-- `print(f"Stack Overflow!!")` in `_push`. -/
  | stackOverflowMsg : Evt
  /-- `print(f"Unknown Instruction {instruction_reg}")` in `run`. -/
  | unknownMsg (op : Nat) : Evt
  /-- `print("Shutting Down...")` in `_shutdown`. -/
  | shuttingDownMsg : Evt
  deriving DecidableEq

/-- The mutable state of `class CPU`: `self.ram`, `self.reg`, `self.pc`,
`self.fl`, `self.is_running`, plus the output log. -/
structure CPUState where
  ram : List Nat
  reg : List Nat
  pc : Nat
  fl : Nat
  is_running : Bool
  output : List Evt
  deriving DecidableEq

/-- Result of running a handler: normal return, uncaught Python
exception (which kills the process; the carried state only witnesses
where it happened), or `sys.exit(code)`. -/
inductive Res where
  | ok (s : CPUState) : Res
  | crash (s : CPUState) : Res
  | exited (code : Nat) (s : CPUState) : Res
  deriving DecidableEq

/-- Append one printed line to the output log. -/
def emit (s : CPUState) (e : Evt) : CPUState :=
  {s with output := s.output ++ [e]}

/-- `ram_read` (cpu.py 320-321): `self.ram[mar]`; out of range raises. -/
def ram_read (s : CPUState) (mar : Nat) : Option Nat :=
  s.ram[mar]?

/-- `ram_write` (cpu.py 323-324): `self.ram[mar] = mdr`; out of range raises. -/
def ram_write (s : CPUState) (mar mdr : Nat) : Option CPUState :=
  if mar < s.ram.length then some {s with ram := s.ram.set mar mdr} else none

/-- `self.reg[i]` read; out of range raises. -/
def reg_read (s : CPUState) (i : Nat) : Option Nat :=
  s.reg[i]?

/-- `self.reg[i] = v`; out of range raises. -/
def reg_write (s : CPUState) (i v : Nat) : Option CPUState :=
  if i < s.reg.length then some {s with reg := s.reg.set i v} else none

/-- `CPU.__init__` (cpu.py 82-109): 256 zeroed ram cells, 8 zeroed
registers with `reg[SP] = STACK_HEAD`, `pc = 0`, `fl = 0`; the dispatch
table itself is the function `perform_op` below; `is_running = False`. -/
def initCPU : CPUState :=
  { ram := List.replicate 256 0
    reg := (List.replicate 8 0).set SP STACK_HEAD
    pc := 0x00
    fl := 0x00
    is_running := false
    output := [] }

/-- `trace` (cpu.py 301-318): prints pc, `ram[pc]`, `ram[pc+1]`,
`ram[pc+2]` and `reg[0] .. reg[7]`.  The ram reads and the eight
register reads raise when out of range. -/
def trace (s : CPUState) : Option CPUState := do
  let b0 ← ram_read s s.pc
  let b1 ← ram_read s (s.pc + 1)
  let b2 ← ram_read s (s.pc + 2)
  if 8 ≤ s.reg.length then
    some (emit s (.traceLine s.pc b0 b1 b2 (s.reg.take 8)))
  else
    none

/-- `_shutdown` (cpu.py 262-264): print the notice, then `sys.exit`.
This returns the state holding the final output; the caller pairs it
with the exit code. -/
def shutdownState (s : CPUState) : CPUState :=
  emit s .shuttingDownMsg

/-! ### ALU (cpu.py 266-299) -/

/-- The trailing `self.reg[reg_a] &= ONE_BYTE` clamp that runs after
every ALU branch. -/
def aluClamp (s : CPUState) (rA : Nat) : Option CPUState := do
  let v ← reg_read s rA
  reg_write s rA (v % 256)

/-- The `if op == ... / elif ...` chain of `alu` (cpu.py 269-296).
The operation tag is the Python string; an unsupported tag raises
(`none`), matching `raise Exception("Unsupported ALU operation")`. -/
def aluBranch (op : String) (s : CPUState) (rA rB : Nat) : Option CPUState :=
  if op = "ADD" then do
    let a ← reg_read s rA
    let b ← reg_read s rB
    reg_write s rA (a + b)
  else if op = "MUL" then do
    let a ← reg_read s rA
    let b ← reg_read s rB
    reg_write s rA (a * b)
  else if op = "CMP" then do
    -- clear the CMP flag bits
    let s0 := {s with fl := s.fl &&& CMP_CLEAR}
    let a ← reg_read s0 rA
    let b ← reg_read s0 rB
    if a < b then
      some {s0 with fl := s0.fl ||| FL_LT}
    else if a > b then
      some {s0 with fl := s0.fl ||| FL_GT}
    else
      some {s0 with fl := s0.fl ||| FL_EQ}
  else if op = "AND" then do
    let a ← reg_read s rA
    let b ← reg_read s rB
    reg_write s rA (a &&& b)
  else if op = "OR" then do
    let a ← reg_read s rA
    let b ← reg_read s rB
    reg_write s rA (a ||| b)
  else if op = "XOR" then do
    let a ← reg_read s rA
    let b ← reg_read s rB
    reg_write s rA (a ^^^ b)
  else if op = "NOT" then do
    -- Python stores `~a` (= -a-1) and then masks it; the composite
    -- stored value is (-a-1) mod 256.
    let a ← reg_read s rA
    reg_write s rA (((-(a : Int) - 1) % 256).toNat)
  else if op = "SHL" then do
    let a ← reg_read s rA
    let b ← reg_read s rB
    reg_write s rA (a <<< b)
  else if op = "SHR" then do
    let a ← reg_read s rA
    let b ← reg_read s rB
    reg_write s rA (a >>> b)
  else
    none

/-- `alu` (cpu.py 266-299): the branch on the operation tag followed by
the unconditional `self.reg[reg_a] &= ONE_BYTE` clamp. -/
def alu (op : String) (s : CPUState) (rA rB : Nat) : Option CPUState := do
  let s1 ← aluBranch op s rA rB
  aluClamp s1 rA

/-! ### Instruction handlers (cpu.py 111-230) -/

/-- Lift an `alu` call to a handler result; an exception inside `alu`
crashes the process. -/
def ofAlu (s : CPUState) (o : Option CPUState) : Res :=
  match o with
  | some s' => .ok s'
  | none => .crash s

/-- `_ldi`: `self.reg[operands[0]] = operands[1]`. -/
def opLdi (s : CPUState) (opa opb : Nat) : Res :=
  match reg_write s opa opb with
  | some s' => .ok s'
  | none => .crash s

/-- `_prn`: `print(self.reg[operands[0]])`. -/
def opPrn (s : CPUState) (opa _opb : Nat) : Res :=
  match reg_read s opa with
  | some v => .ok (emit s (.prn v))
  | none => .crash s

/-- `_hlt`: `self.is_running = False`. -/
def opHlt (s : CPUState) (_opa _opb : Nat) : Res :=
  .ok {s with is_running := false}

/-- `_add`: forwards to `alu("ADD", ...)`. -/
def opAdd (s : CPUState) (opa opb : Nat) : Res := ofAlu s (alu "ADD" s opa opb)

/-- `_mul`: forwards to `alu("MUL", ...)`. -/
def opMul (s : CPUState) (opa opb : Nat) : Res := ofAlu s (alu "MUL" s opa opb)

/-- `_cmp`: forwards to `alu("CMP", ...)`. -/
def opCmp (s : CPUState) (opa opb : Nat) : Res := ofAlu s (alu "CMP" s opa opb)

/-- `_and`: forwards to `alu("AND", ...)`. -/
def opAnd (s : CPUState) (opa opb : Nat) : Res := ofAlu s (alu "AND" s opa opb)

/-- `_or`: forwards to `alu("OR", ...)`. -/
def opOr (s : CPUState) (opa opb : Nat) : Res := ofAlu s (alu "OR" s opa opb)

/-- `_xor`: forwards to `alu("XOR", ...)`. -/
def opXor (s : CPUState) (opa opb : Nat) : Res := ofAlu s (alu "XOR" s opa opb)

/-- `_not`: forwards to `alu("NOT", ...)`. -/
def opNot (s : CPUState) (opa opb : Nat) : Res := ofAlu s (alu "NOT" s opa opb)

/-- `_shl`: forwards to `alu("SHL", ...)`. -/
def opShl (s : CPUState) (opa opb : Nat) : Res := ofAlu s (alu "SHL" s opa opb)

/-- `_shr`: forwards to `alu("SHR", ...)`. -/
def opShr (s : CPUState) (opa opb : Nat) : Res := ofAlu s (alu "SHR" s opa opb)

/-- `_pop` (cpu.py 188-194):
`self.reg[operands[0]] = self.ram_read(self.reg[SP])`, then
`if self.reg[SP] < STACK_HEAD: self.reg[SP] += 1`.
Note that the guard re-reads `reg[SP]` after the register write, which
matters when `operands[0]` is the SP register itself. -/
def opPop (s : CPUState) (opa _opb : Nat) : Res :=
  match reg_read s SP with
  | none => .crash s
  | some sp =>
    match ram_read s sp with
    | none => .crash s
    | some v =>
      match reg_write s opa v with
      | none => .crash s
      | some s1 =>
        match reg_read s1 SP with
        | none => .crash s1
        | some sp' =>
          if sp' < STACK_HEAD then
            match reg_write s1 SP (sp' + 1) with
            | some s2 => .ok s2
            | none => .crash s1
          else
            .ok s1

/-- `_push` (cpu.py 196-206):
`if (self.reg[SP]-1) >= self.reg[PROGRAM_END]` (Python integer
comparison, hence the cast through `Int`): decrement SP and store
`self.reg[operands[0]]` at the new `reg[SP]` (= sp-1); otherwise print
the overflow diagnostic, dump `trace()`, and `_shutdown(STACK_OVERFLOW)`. -/
def opPush (s : CPUState) (opa _opb : Nat) : Res :=
  match reg_read s SP, reg_read s PROGRAM_END with
  | some sp, some k =>
    if (sp : Int) - 1 ≥ (k : Int) then
      match reg_write s SP (sp - 1) with
      | none => .crash s
      | some s1 =>
        -- `self.ram_write(self.reg[SP], self.reg[operands[0]])`;
        -- `self.reg[SP]` now holds sp-1.
        match reg_read s1 opa with
        | none => .crash s1
        | some v =>
          match ram_write s1 (sp - 1) v with
          | some s2 => .ok s2
          | none => .crash s1
    else
      let s1 := emit s .stackOverflowMsg
      match trace s1 with
      | none => .crash s1
      | some s2 => .exited STACK_OVERFLOW (shutdownState s2)
  | _, _ => .crash s

/-- `_jmp`: `self.pc = self.reg[operands[0]]`. -/
def opJmp (s : CPUState) (opa _opb : Nat) : Res :=
  match reg_read s opa with
  | some t => .ok {s with pc := t}
  | none => .crash s

/-- `_jeq`: jump when `self.fl & EQ` is truthy, else `self.pc += 2`. -/
def opJeq (s : CPUState) (opa _opb : Nat) : Res :=
  if s.fl &&& FL_EQ ≠ 0 then
    match reg_read s opa with
    | some t => .ok {s with pc := t}
    | none => .crash s
  else
    .ok {s with pc := s.pc + 2}

/-- `_jne`: jump when `self.fl & EQ` is falsy, else `self.pc += 2`. -/
def opJne (s : CPUState) (opa _opb : Nat) : Res :=
  if s.fl &&& FL_EQ = 0 then
    match reg_read s opa with
    | some t => .ok {s with pc := t}
    | none => .crash s
  else
    .ok {s with pc := s.pc + 2}

/-! ### PC advancement and the run loop (cpu.py 251-260, 326-342) -/

/-- `_to_next_instruction` (cpu.py 251-260): when bit 4 of the opcode
is clear, advance pc by `(ir >> 6) + 1`. -/
def to_next_instruction (s : CPUState) (ir : Nat) : CPUState :=
  let isPcAlreadySet := (ir >>> OP_SETS_INST) &&& ONE_BIT
  if isPcAlreadySet = 0 then
    {s with pc := s.pc + ((ir >>> NUM_OPERANDS) + 1)}
  else
    s

/-- The dispatch table `self.perform_op` built in `__init__`
(cpu.py 90-108): exactly these seventeen opcodes have handlers. -/
def perform_op (ir : Nat) : Option (CPUState → Nat → Nat → Res) :=
  if ir = LDI then some opLdi
  else if ir = PRN then some opPrn
  else if ir = HLT then some opHlt
  else if ir = PUSH then some opPush
  else if ir = POP then some opPop
  else if ir = JMP then some opJmp
  else if ir = JEQ then some opJeq
  else if ir = JNE then some opJne
  else if ir = ADD then some opAdd
  else if ir = MUL then some opMul
  else if ir = CMP then some opCmp
  else if ir = AND then some opAnd
  else if ir = OR then some opOr
  else if ir = XOR then some opXor
  else if ir = NOT then some opNot
  else if ir = SHL then some opShl
  else if ir = SHR then some opShr
  else none

/-- The opcodes registered in the dispatch table, as listed in
`__init__`. -/
def registeredOps : List Nat :=
  [LDI, PRN, HLT, PUSH, POP, JMP, JEQ, JNE,
   ADD, MUL, CMP, AND, OR, XOR, NOT, SHL, SHR]

/-- One iteration of the `while self.is_running` body in `run`
(cpu.py 330-340): fetch `ram[pc]`, `ram[pc+1]`, `ram[pc+2]`
unconditionally, dispatch, trace, run the handler, then advance pc;
an unregistered opcode prints the diagnostic and exits with status 1. -/
def step (s : CPUState) : Res :=
  match ram_read s s.pc with
  | none => .crash s
  | some ir =>
    match ram_read s (s.pc + 1) with
    | none => .crash s
    | some opa =>
      match ram_read s (s.pc + 2) with
      | none => .crash s
      | some opb =>
        match perform_op ir with
        | some handler =>
          match trace s with
          | none => .crash s
          | some s1 =>
            match handler s1 opa opb with
            | .ok s2 => .ok (to_next_instruction s2 ir)
            | r => r
        | none =>
          .exited UNKNOWN_INSTRUCTION (shutdownState (emit s (.unknownMsg ir)))

/-- Outcome of running the loop for a bounded number of iterations. -/
inductive RunRes where
  | exited (code : Nat) (s : CPUState) : RunRes
  | crash (s : CPUState) : RunRes
  | fuelOut (s : CPUState) : RunRes
  deriving DecidableEq

/-- The `while self.is_running` loop of `run`, with fuel to bound the
number of iterations; on normal loop exit `_shutdown()` exits with
status `DONE`. -/
def runLoop : Nat → CPUState → RunRes
  | 0, s => .fuelOut s
  | fuel + 1, s =>
    if s.is_running then
      match step s with
      | .ok s' => runLoop fuel s'
      | .crash s' => .crash s'
      | .exited c s' => .exited c s'
    else
      .exited DONE (shutdownState s)

/-- `run` (cpu.py 326-342): print the banner, set `is_running`, loop. -/
def run (s : CPUState) (fuel : Nat) : RunRes :=
  runLoop fuel {emit s .runningMsg with is_running := true}

/-! ### Concrete states and small helpers used by witnesses and
counterexamples -/

/-- Build a machine state with the default pc/fl/output. -/
def mkState (ram reg : List Nat) : CPUState :=
  { ram := ram, reg := reg, pc := 0, fl := 0, is_running := true, output := [] }

/-- A state with `reg[0] = 200`, `reg[1] = 100` (the ALU does not touch
ram, so none is supplied). -/
def aluWitState : CPUState := mkState [] [200, 100, 0, 0, 0, 0, 0, 244]

/-- A state with `reg[0] = 5`, `reg[1] = 9` and every flag bit set. -/
def cmpWitState : CPUState :=
  {mkState [] [5, 9, 0, 0, 0, 0, 0, 244] with fl := 0xff}

/-- A freshly initialised machine: `sp = reg[7] = 0xF4`, empty program
(`reg[4] = 0`). -/
def stackState : CPUState := mkState (List.replicate 256 0) [0, 0, 0, 0, 0, 0, 0, 244]

/-- Same but with `reg[7] = 0xF5`, as left by `LDI R7, 245`. -/
def stackState245 : CPUState := mkState (List.replicate 256 0) [0, 0, 0, 0, 0, 0, 0, 245]

/-- A state whose program end `reg[4] = 250` exceeds `sp - 1`, so the
next PUSH overflows. -/
def stackOverState : CPUState :=
  mkState (List.replicate 256 0) [0, 0, 0, 0, 250, 0, 0, 244]

/-- The register list of the `.ok` state of a result, if any. -/
def resReg (r : Res) (i : Nat) : Option Nat :=
  match r with
  | .ok s => s.reg[i]?
  | _ => none

/-- The pc of a crashed run, if the run crashed. -/
def crashPc (r : RunRes) : Option Nat :=
  match r with
  | .crash s => some s.pc
  | _ => none

/-- `PUSH r` immediately followed by `POP r'` (the operand bytes beyond
the register index are ignored by both handlers). -/
def pushThenPop (s : CPUState) (r r' : Nat) : Res :=
  match opPush s r 0 with
  | .ok s1 => opPop s1 r' 0
  | other => other

/-- The memory image after loading the program
`LDI R0, 254 ; JMP R0`: five instruction bytes, then zeroes.  `load`
leaves `reg[PROGRAM_END] = 5`. -/
def jmp254Prog : CPUState :=
  { ram := [LDI, 0, 254, JMP, 0] ++ List.replicate 251 0
    reg := ((List.replicate 8 0).set SP STACK_HEAD).set PROGRAM_END 5
    pc := 0
    fl := 0
    is_running := false
    output := [] }

/-- The memory image after loading `LDI R0, 8 ; PRN R0 ; HLT`
(the end-to-end program of spec §8). -/
def hltProg : CPUState :=
  { ram := [LDI, 0, 8, PRN, 0, HLT] ++ List.replicate 250 0
    reg := ((List.replicate 8 0).set SP STACK_HEAD).set PROGRAM_END 6
    pc := 0
    fl := 0
    is_running := false
    output := [] }

/-- `hltProg` with the running flag set, as inside the run loop. -/
def runningHlt : CPUState := {hltProg with is_running := true}

/-- A running state whose next instruction is `JMP R0` with
`reg[0] = 5`. -/
def jmpState : CPUState :=
  mkState ([JMP, 0] ++ List.replicate 254 0) [5, 0, 0, 0, 2, 0, 0, 244]

/-- A running state whose next instruction is `JEQ R0` with
`reg[0] = 5` and the Equal flag set. -/
def jeqState : CPUState :=
  {mkState ([JEQ, 0] ++ List.replicate 254 0)
    [5, 0, 0, 0, 2, 0, 0, 244] with fl := 1}

/-- A running state whose next instruction is `JNE R0` with
`reg[0] = 5` and the Equal flag clear. -/
def jneState : CPUState :=
  mkState ([JNE, 0] ++ List.replicate 254 0) [5, 0, 0, 0, 2, 0, 0, 244]

/-- `hltProg` positioned on its `HLT` opcode, inside the run loop. -/
def hltAtPc : CPUState := {hltProg with pc := 5, is_running := true}

/-- Whether a handler result is a normal return. -/
def resIsOk : Res → Bool :=
  fun r => match r with
  | .ok _ => true
  | _ => false

/-! ## Helper lemmas -/

lemma list_set_same {l : List Nat} {i v : Nat} (h : l[i]? = some v) :
    l.set i v = l := by
  induction l generalizing i with
  | nil => simp at h
  | cons x xs ih =>
    cases i with
    | zero => simp_all
    | succ n =>
      simp only [List.getElem?_cons_succ] at h
      simp [ih h]

lemma reg_write_some_iff {s : CPUState} {i v : Nat} {s' : CPUState} :
    reg_write s i v = some s' ↔
      i < s.reg.length ∧ s' = {s with reg := s.reg.set i v} := by
  unfold reg_write
  split
  · simp_all [eq_comm]
  · simp_all

lemma ram_write_some_iff {s : CPUState} {i v : Nat} {s' : CPUState} :
    ram_write s i v = some s' ↔
      i < s.ram.length ∧ s' = {s with ram := s.ram.set i v} := by
  unfold ram_write
  split
  · simp_all [eq_comm]
  · simp_all

lemma reg_read_lt {s : CPUState} {i v : Nat} (h : reg_read s i = some v) :
    i < s.reg.length :=
  (List.getElem?_eq_some.mp h).1

lemma aluClamp_eq {s : CPUState} {rA v : Nat} (h : reg_read s rA = some v) :
    aluClamp s rA = some {s with reg := s.reg.set rA (v % 256)} := by
  unfold aluClamp
  simp only [Option.bind_eq_bind, Option.bind_eq_some]
  exact ⟨v, h, reg_write_some_iff.mpr ⟨reg_read_lt h, rfl⟩⟩

lemma aluClamp_bound {s s' : CPUState} {rA : Nat}
    (h : aluClamp s rA = some s') :
    ∃ v, reg_read s' rA = some v ∧ v ≤ 255 := by
  unfold aluClamp at h
  simp only [Option.bind_eq_bind, Option.bind_eq_some] at h
  obtain ⟨v, hv, hw⟩ := h
  obtain ⟨hlt, rfl⟩ := reg_write_some_iff.mp hw
  refine ⟨v % 256, ?_, by omega⟩
  unfold reg_read
  simpa using List.getElem?_set_eq_of_lt (v % 256) (l := s.reg) (reg_read_lt hv)

lemma reg_read_fl {s : CPUState} {x i : Nat} :
    reg_read {s with fl := x} i = reg_read s i := rfl

lemma alu_bind {op : String} {s s' : CPUState} {rA rB : Nat}
    (h : alu op s rA rB = some s') :
    ∃ s1, aluBranch op s rA rB = some s1 ∧ aluClamp s1 rA = some s' := by
  unfold alu at h
  simp only [Option.bind_eq_bind, Option.bind_eq_some] at h
  exact h

lemma aluBranch_CMP_eq {s : CPUState} {rA rB a b : Nat}
    (ha : reg_read s rA = some a) (hb : reg_read s rB = some b) :
    aluBranch "CMP" s rA rB =
      some { s with
             fl := (s.fl &&& CMP_CLEAR) |||
               (if a < b then FL_LT else if b < a then FL_GT else FL_EQ) } := by
  unfold aluBranch
  have ha' : reg_read {s with fl := s.fl &&& CMP_CLEAR} rA = some a := ha
  have hb' : reg_read {s with fl := s.fl &&& CMP_CLEAR} rB = some b := hb
  simp only [String.reduceEq, reduceIte, ha', hb', Option.bind_eq_bind,
    Option.some_bind]
  rcases Nat.lt_trichotomy a b with h | h | h
  · simp [h]
  · simp [h, lt_irrefl]
  · have h1 : ¬ a < b := by omega
    simp [h1, h, gt_iff_lt]

lemma alu_CMP_eq {s : CPUState} {rA rB a b : Nat}
    (ha : reg_read s rA = some a) (hb : reg_read s rB = some b) :
    alu "CMP" s rA rB =
      some { s with
             fl := (s.fl &&& CMP_CLEAR) |||
               (if a < b then FL_LT else if b < a then FL_GT else FL_EQ),
             reg := s.reg.set rA (a % 256) } := by
  unfold alu
  rw [aluBranch_CMP_eq ha hb]
  simp only [Option.bind_eq_bind, Option.some_bind]
  exact aluClamp_eq (s := { s with fl := (s.fl &&& CMP_CLEAR) |||
    (if a < b then FL_LT else if b < a then FL_GT else FL_EQ) }) (v := a) ha

set_option maxRecDepth 8000 in
lemma cmp_flag_bits :
    ∀ fl < 256,
      ((((fl &&& 248) ||| 4) &&& 4 ≠ 0) ∧ (((fl &&& 248) ||| 4) &&& 2 = 0) ∧
        (((fl &&& 248) ||| 4) &&& 1 = 0)) ∧
      ((((fl &&& 248) ||| 2) &&& 4 = 0) ∧ (((fl &&& 248) ||| 2) &&& 2 ≠ 0) ∧
        (((fl &&& 248) ||| 2) &&& 1 = 0)) ∧
      ((((fl &&& 248) ||| 1) &&& 4 = 0) ∧ (((fl &&& 248) ||| 1) &&& 2 = 0) ∧
        (((fl &&& 248) ||| 1) &&& 1 ≠ 0)) := by
  decide

/-! ## Claim theorems -/

/-- C1: executing CMP on registers holding `a` and `b` first clears the
Equal/Greater/Less flag bits and then sets exactly one of LT, GT, EQ,
matching the ordinary integer comparison of `a` and `b`: LT iff
`a < b`, GT iff `a > b`, EQ iff `a = b`. -/
theorem cmp_flag_exclusive
    (s : CPUState) (rA rB a b : Nat)
    (ha : reg_read s rA = some a) (hb : reg_read s rB = some b)
    (hfl : s.fl < 256) :
    ∃ s', alu "CMP" s rA rB = some s' ∧
      s'.fl = (s.fl &&& CMP_CLEAR) |||
        (if a < b then FL_LT else if b < a then FL_GT else FL_EQ) ∧
      ((s'.fl &&& FL_LT ≠ 0) ↔ a < b) ∧
      ((s'.fl &&& FL_GT ≠ 0) ↔ b < a) ∧
      ((s'.fl &&& FL_EQ ≠ 0) ↔ a = b) := by
  refine ⟨_, alu_CMP_eq ha hb, rfl, ?_⟩
  obtain ⟨c4, c2, c1⟩ := cmp_flag_bits s.fl hfl
  show ((((s.fl &&& CMP_CLEAR) |||
      (if a < b then FL_LT else if b < a then FL_GT else FL_EQ)) &&& FL_LT ≠ 0) ↔ a < b) ∧ _ ∧ _
  simp only [FL_LT, FL_GT, FL_EQ, CMP_CLEAR]
  rcases Nat.lt_trichotomy a b with h | h | h
  · rw [if_pos h]
    exact ⟨iff_of_true c4.1 h,
      iff_of_false (by simp [c4.2.1]) (by omega),
      iff_of_false (by simp [c4.2.2]) (by omega)⟩
  · rw [if_neg (by omega), if_neg (by omega)]
    exact ⟨iff_of_false (by simp [c1.1]) (by omega),
      iff_of_false (by simp [c1.2.1]) (by omega),
      iff_of_true c1.2.2 h⟩
  · rw [if_neg (by omega), if_pos h]
    exact ⟨iff_of_false (by simp [c2.1]) (by omega),
      iff_of_true c2.2.1 h,
      iff_of_false (by simp [c2.2.2]) (by omega)⟩

/-- Witness for C1 at `reg[A] = 5`, `reg[B] = 9`, all flag bits
initially set: LT ends set, EQ and GT end clear. -/
theorem cmp_flag_exclusive_witness :
    ∃ s', alu "CMP" cmpWitState 0 1 = some s' ∧
      s'.fl = (cmpWitState.fl &&& CMP_CLEAR) |||
        (if (5 : Nat) < 9 then FL_LT else if (9 : Nat) < 5 then FL_GT else FL_EQ) ∧
      ((s'.fl &&& FL_LT ≠ 0) ↔ (5 : Nat) < 9) ∧
      ((s'.fl &&& FL_GT ≠ 0) ↔ (9 : Nat) < 5) ∧
      ((s'.fl &&& FL_EQ ≠ 0) ↔ (5 : Nat) = 9) :=
  cmp_flag_exclusive cmpWitState 0 1 5 9 (by decide) (by decide) (by decide)

/-- C2: for every ALU operation except CMP, after a successful
execution the value left in `reg[regA]` lies in `[0, 255]`. -/
theorem alu_clamp_invariant :
    ∀ op ∈ (["ADD", "MUL", "AND", "OR", "XOR", "NOT", "SHL", "SHR"] : List String),
    ∀ (s : CPUState) (rA rB : Nat) (s' : CPUState),
      alu op s rA rB = some s' →
      ∃ v, reg_read s' rA = some v ∧ v ≤ 255 := by
  intro op _ s rA rB s' h
  obtain ⟨s1, _, hc⟩ := alu_bind h
  exact aluClamp_bound hc

/-- Witness for C2: `reg[A] = 200`, `reg[B] = 100`, ADD yields
`reg[A] = 44` (300 mod 256), which lies in `[0, 255]`. -/
theorem alu_clamp_invariant_witness :
    ∃ s' v, alu "ADD" aluWitState 0 1 = some s' ∧ reg_read s' 0 = some v ∧
      v ≤ 255 ∧ v = 44 := by
  cases h : alu "ADD" aluWitState 0 1 with
  | none => exact absurd h (by decide)
  | some s' =>
    obtain ⟨v, hv, hb⟩ :=
      alu_clamp_invariant "ADD" (by simp) aluWitState 0 1 s' h
    have h44 : Option.bind (alu "ADD" aluWitState 0 1) (fun t => reg_read t 0) =
        some 44 := by decide
    rw [h] at h44
    rw [show Option.bind (some s') (fun t => reg_read t 0) = reg_read s' 0
      from rfl] at h44
    exact ⟨s', v, rfl, hv, hb, Option.some.inj (hv.symm.trans h44)⟩

/-- C8: executing CMP on registers holding byte values mutates no
register and leaves ram, pc, the output log and the running flag
unchanged; only the flags byte may change. -/
theorem cmp_no_register_mutation
    (s : CPUState) (rA rB a b : Nat)
    (ha : reg_read s rA = some a) (hb : reg_read s rB = some b)
    (ha256 : a < 256) :
    ∃ s', alu "CMP" s rA rB = some s' ∧ s'.reg = s.reg ∧ s'.ram = s.ram ∧
      s'.pc = s.pc ∧ s'.output = s.output ∧ s'.is_running = s.is_running := by
  refine ⟨_, alu_CMP_eq ha hb, ?_, rfl, rfl, rfl, rfl⟩
  show s.reg.set rA (a % 256) = s.reg
  rw [Nat.mod_eq_of_lt ha256]
  exact list_set_same ha

/-- Witness for C8 at `reg[A] = 5`, `reg[B] = 9`. -/
theorem cmp_no_register_mutation_witness :
    ∃ s', alu "CMP" cmpWitState 0 1 = some s' ∧ s'.reg = cmpWitState.reg ∧
      s'.ram = cmpWitState.ram ∧ s'.pc = cmpWitState.pc ∧
      s'.output = cmpWitState.output ∧
      s'.is_running = cmpWitState.is_running :=
  cmp_no_register_mutation cmpWitState 0 1 5 9 (by decide) (by decide) (by decide)

set_option maxRecDepth 8000 in
/-- C10: immediately after construction, `reg[7] = 0xF4`
(the stack-top constant), `pc = 0`, the flags byte is `0`, every other
register is `0`, and all 256 memory cells are `0`. -/
theorem init_state :
    reg_read initCPU SP = some STACK_HEAD ∧ initCPU.pc = 0 ∧
    initCPU.fl = 0 ∧
    (∀ i, i < 8 → i ≠ SP → reg_read initCPU i = some 0) ∧
    (∀ j, j < 256 → ram_read initCPU j = some 0) ∧
    initCPU.is_running = false := by
  refine ⟨by decide, rfl, rfl, by decide, ?_, rfl⟩
  intro j hj
  show (List.replicate 256 0)[j]? = some 0
  have hlen : j < (List.replicate 256 (0 : Nat)).length := by
    rw [List.length_replicate]; exact hj
  rw [List.getElem?_eq_getElem hlen, List.getElem_replicate]

/-- Witness for C10 at register 0 and memory cell 255. -/
theorem init_state_witness :
    reg_read initCPU 0 = some 0 ∧ ram_read initCPU 255 = some 0 :=
  ⟨init_state.2.2.2.1 0 (by decide) (by decide),
   init_state.2.2.2.2.1 255 (by decide)⟩

lemma reg_write_pc {s s' : CPUState} {i v : Nat}
    (h : reg_write s i v = some s') : s'.pc = s.pc := by
  obtain ⟨-, rfl⟩ := reg_write_some_iff.mp h
  rfl

lemma ram_write_pc {s s' : CPUState} {i v : Nat}
    (h : ram_write s i v = some s') : s'.pc = s.pc := by
  obtain ⟨-, rfl⟩ := ram_write_some_iff.mp h
  rfl

lemma aluClamp_pc {s s' : CPUState} {rA : Nat}
    (h : aluClamp s rA = some s') : s'.pc = s.pc := by
  unfold aluClamp at h
  simp only [Option.bind_eq_bind, Option.bind_eq_some] at h
  obtain ⟨v, -, hw⟩ := h
  exact reg_write_pc hw

lemma aluBranch_pc {op : String} {s s1 : CPUState} {rA rB : Nat}
    (h : aluBranch op s rA rB = some s1) : s1.pc = s.pc := by
  unfold aluBranch at h
  split_ifs at h <;>
    simp only [Option.bind_eq_bind, Option.bind_eq_some] at h
  case _ =>
    obtain ⟨a, -, b, -, hw⟩ := h
    exact reg_write_pc hw
  case _ =>
    obtain ⟨a, -, b, -, hw⟩ := h
    exact reg_write_pc hw
  case _ =>
    obtain ⟨a, -, b, -, hw⟩ := h
    split_ifs at hw <;> (cases Option.some.inj hw; rfl)
  case _ =>
    obtain ⟨a, -, b, -, hw⟩ := h
    exact reg_write_pc hw
  case _ =>
    obtain ⟨a, -, b, -, hw⟩ := h
    exact reg_write_pc hw
  case _ =>
    obtain ⟨a, -, b, -, hw⟩ := h
    exact reg_write_pc hw
  case _ =>
    obtain ⟨a, -, hw⟩ := h
    exact reg_write_pc hw
  case _ =>
    obtain ⟨a, -, b, -, hw⟩ := h
    exact reg_write_pc hw
  case _ =>
    obtain ⟨a, -, b, -, hw⟩ := h
    exact reg_write_pc hw

lemma alu_pc {op : String} {s s' : CPUState} {rA rB : Nat}
    (h : alu op s rA rB = some s') : s'.pc = s.pc := by
  obtain ⟨s1, hb, hc⟩ := alu_bind h
  rw [aluClamp_pc hc, aluBranch_pc hb]

lemma ofAlu_ok {s s' : CPUState} {o : Option CPUState}
    (h : ofAlu s o = .ok s') : o = some s' := by
  cases o with
  | none => exact Res.noConfusion h
  | some x => exact congrArg some (Res.ok.inj h)

lemma ofAlu_pc {op : String} {s s' : CPUState} {rA rB : Nat}
    (h : ofAlu s (alu op s rA rB) = .ok s') : s'.pc = s.pc :=
  alu_pc (ofAlu_ok h)

lemma opLdi_pc {s s' : CPUState} {a b : Nat}
    (h : opLdi s a b = .ok s') : s'.pc = s.pc := by
  unfold opLdi at h
  split at h
  next t heq => cases Res.ok.inj h; exact reg_write_pc heq
  next => exact Res.noConfusion h

lemma opPrn_pc {s s' : CPUState} {a b : Nat}
    (h : opPrn s a b = .ok s') : s'.pc = s.pc := by
  unfold opPrn at h
  split at h
  next v heq => cases Res.ok.inj h; rfl
  next => exact Res.noConfusion h

lemma opHlt_pc {s s' : CPUState} {a b : Nat}
    (h : opHlt s a b = .ok s') : s'.pc = s.pc := by
  cases Res.ok.inj h
  rfl

lemma opPop_pc {s s' : CPUState} {a b : Nat}
    (h : opPop s a b = .ok s') : s'.pc = s.pc := by
  unfold opPop at h
  split at h
  next => exact Res.noConfusion h
  next sp hsp =>
    split at h
    next => exact Res.noConfusion h
    next v hv =>
      split at h
      next => exact Res.noConfusion h
      next s1 hw1 =>
        split at h
        next => exact Res.noConfusion h
        next sp2 hsp2 =>
          split at h
          · split at h
            next s2 hw2 =>
              cases Res.ok.inj h
              rw [reg_write_pc hw2, reg_write_pc hw1]
            next => exact Res.noConfusion h
          · cases Res.ok.inj h
            exact reg_write_pc hw1

lemma opPush_pc {s s' : CPUState} {a b : Nat}
    (h : opPush s a b = .ok s') : s'.pc = s.pc := by
  unfold opPush at h
  split at h
  next sp k hsp hk =>
    split at h
    · split at h
      next => exact Res.noConfusion h
      next s1 hw1 =>
        split at h
        next => exact Res.noConfusion h
        next v hv =>
          split at h
          next s2 hw2 =>
            cases Res.ok.inj h
            rw [ram_write_pc hw2, reg_write_pc hw1]
          next => exact Res.noConfusion h
    · simp only at h
      split at h
      next => exact Res.noConfusion h
      next s2 htr => exact Res.noConfusion h
  next => exact Res.noConfusion h

lemma trace_frame {s s1 : CPUState} (h : trace s = some s1) :
    s1.pc = s.pc ∧ s1.reg = s.reg ∧ s1.ram = s.ram ∧ s1.fl = s.fl ∧
      s1.is_running = s.is_running := by
  unfold trace at h
  simp only [Option.bind_eq_bind, Option.bind_eq_some] at h
  obtain ⟨b0, -, b1, -, b2, -, hif⟩ := h
  split at hif
  · cases Option.some.inj hif
    exact ⟨rfl, rfl, rfl, rfl, rfl⟩
  · exact Option.noConfusion hif

lemma to_next_pc0 {s : CPUState} {ir : Nat}
    (h : (ir >>> OP_SETS_INST) &&& ONE_BIT = 0) :
    (to_next_instruction s ir).pc = s.pc + ((ir >>> NUM_OPERANDS) + 1) := by
  simp only [to_next_instruction]
  rw [if_pos h]

lemma to_next_pc1 (ir : Nat) {s : CPUState}
    (h : (ir >>> OP_SETS_INST) &&& ONE_BIT ≠ 0) :
    to_next_instruction s ir = s := by
  simp only [to_next_instruction]
  rw [if_neg h]

lemma to_next_is_running {s : CPUState} {ir : Nat} :
    (to_next_instruction s ir).is_running = s.is_running := by
  simp only [to_next_instruction]
  split <;> rfl

lemma perform_op_mem (ir : Nat) :
    (perform_op ir).isSome ↔ ir ∈ registeredOps := by
  constructor
  · intro h
    by_contra hmem
    simp only [registeredOps, List.mem_cons, List.not_mem_nil, or_false,
      not_or] at hmem
    obtain ⟨n1, n2, n3, n4, n5, n6, n7, n8, n9, n10, n11, n12, n13, n14,
      n15, n16, n17⟩ := hmem
    unfold perform_op at h
    rw [if_neg n1, if_neg n2, if_neg n3, if_neg n4, if_neg n5, if_neg n6,
      if_neg n7, if_neg n8, if_neg n9, if_neg n10, if_neg n11, if_neg n12,
      if_neg n13, if_neg n14, if_neg n15, if_neg n16, if_neg n17] at h
    simp at h
  · intro hmem
    simp only [registeredOps, List.mem_cons, List.not_mem_nil, or_false]
      at hmem
    rcases hmem with rfl | rfl | rfl | rfl | rfl | rfl | rfl | rfl | rfl |
      rfl | rfl | rfl | rfl | rfl | rfl | rfl | rfl
    · rw [show perform_op LDI = some opLdi from rfl]; rfl
    · rw [show perform_op PRN = some opPrn from rfl]; rfl
    · rw [show perform_op HLT = some opHlt from rfl]; rfl
    · rw [show perform_op PUSH = some opPush from rfl]; rfl
    · rw [show perform_op POP = some opPop from rfl]; rfl
    · rw [show perform_op JMP = some opJmp from rfl]; rfl
    · rw [show perform_op JEQ = some opJeq from rfl]; rfl
    · rw [show perform_op JNE = some opJne from rfl]; rfl
    · rw [show perform_op ADD = some opAdd from rfl]; rfl
    · rw [show perform_op MUL = some opMul from rfl]; rfl
    · rw [show perform_op CMP = some opCmp from rfl]; rfl
    · rw [show perform_op AND = some opAnd from rfl]; rfl
    · rw [show perform_op OR = some opOr from rfl]; rfl
    · rw [show perform_op XOR = some opXor from rfl]; rfl
    · rw [show perform_op NOT = some opNot from rfl]; rfl
    · rw [show perform_op SHL = some opShl from rfl]; rfl
    · rw [show perform_op SHR = some opShr from rfl]; rfl

lemma step_ok_elim {s s' : CPUState} {ir opa opb : Nat}
    (h0 : ram_read s s.pc = some ir) (h1 : ram_read s (s.pc + 1) = some opa)
    (h2 : ram_read s (s.pc + 2) = some opb)
    {handler : CPUState → Nat → Nat → Res} (hp : perform_op ir = some handler)
    (h : step s = .ok s') :
    ∃ s1 s2, trace s = some s1 ∧ handler s1 opa opb = .ok s2 ∧
      s' = to_next_instruction s2 ir := by
  unfold step at h
  simp only [h0, h1, h2, hp] at h
  split at h
  next => exact Res.noConfusion h
  next s1 htr =>
    split at h
    next s2 hh => exact ⟨s1, s2, htr, hh, (Res.ok.inj h).symm⟩
    next r hr hne => exact absurd h (hne s')

lemma registered_nonjump_pc :
    ∀ ir ∈ registeredOps, (ir >>> OP_SETS_INST) &&& ONE_BIT = 0 →
    ∀ handler : CPUState → Nat → Nat → Res, perform_op ir = some handler →
    ∀ (s : CPUState) (opa opb : Nat) (s2 : CPUState),
      handler s opa opb = .ok s2 → s2.pc = s.pc := by
  intro ir hmem hbit handler hp s opa opb s2 hh
  simp only [registeredOps, List.mem_cons, List.not_mem_nil, or_false] at hmem
  rcases hmem with rfl | rfl | rfl | rfl | rfl | rfl | rfl | rfl | rfl | rfl |
    rfl | rfl | rfl | rfl | rfl | rfl | rfl
  · rw [show perform_op LDI = some opLdi from rfl] at hp
    cases Option.some.inj hp
    exact opLdi_pc hh
  · rw [show perform_op PRN = some opPrn from rfl] at hp
    cases Option.some.inj hp
    exact opPrn_pc hh
  · rw [show perform_op HLT = some opHlt from rfl] at hp
    cases Option.some.inj hp
    exact opHlt_pc hh
  · rw [show perform_op PUSH = some opPush from rfl] at hp
    cases Option.some.inj hp
    exact opPush_pc hh
  · rw [show perform_op POP = some opPop from rfl] at hp
    cases Option.some.inj hp
    exact opPop_pc hh
  · exact absurd hbit (by decide)
  · exact absurd hbit (by decide)
  · exact absurd hbit (by decide)
  · rw [show perform_op ADD = some opAdd from rfl] at hp
    cases Option.some.inj hp
    unfold opAdd at hh
    exact ofAlu_pc hh
  · rw [show perform_op MUL = some opMul from rfl] at hp
    cases Option.some.inj hp
    unfold opMul at hh
    exact ofAlu_pc hh
  · rw [show perform_op CMP = some opCmp from rfl] at hp
    cases Option.some.inj hp
    unfold opCmp at hh
    exact ofAlu_pc hh
  · rw [show perform_op AND = some opAnd from rfl] at hp
    cases Option.some.inj hp
    unfold opAnd at hh
    exact ofAlu_pc hh
  · rw [show perform_op OR = some opOr from rfl] at hp
    cases Option.some.inj hp
    unfold opOr at hh
    exact ofAlu_pc hh
  · rw [show perform_op XOR = some opXor from rfl] at hp
    cases Option.some.inj hp
    unfold opXor at hh
    exact ofAlu_pc hh
  · rw [show perform_op NOT = some opNot from rfl] at hp
    cases Option.some.inj hp
    unfold opNot at hh
    exact ofAlu_pc hh
  · rw [show perform_op SHL = some opShl from rfl] at hp
    cases Option.some.inj hp
    unfold opShl at hh
    exact ofAlu_pc hh
  · rw [show perform_op SHR = some opShr from rfl] at hp
    cases Option.some.inj hp
    unfold opShr at hh
    exact ofAlu_pc hh

/-- C7: POP reads `ram[SP]` into `reg[regA]`; it then increments the
stack pointer only if it is strictly below `STACK_HEAD = 0xF4`, so the
pointer saturates at `0xF4` and never increments past it even when POP
is executed more times than PUSH.  When the operand register is the SP
register itself, the increment guard reads the just-popped value,
exactly as the code re-reads `reg[SP]` after the register write. -/
theorem pop_saturation
    (s : CPUState) (a opb sp v : Nat)
    (hsp : reg_read s SP = some sp) (hram : ram_read s sp = some v)
    (ha : a < s.reg.length) :
    ∃ s', opPop s a opb = .ok s' ∧
      (a ≠ SP → reg_read s' a = some v ∧
        reg_read s' SP = some (if sp < STACK_HEAD then sp + 1 else sp)) ∧
      (a = SP → reg_read s' SP = some (if v < STACK_HEAD then v + 1 else v)) := by
  have hsplen : SP < s.reg.length := reg_read_lt hsp
  have hw : reg_write s a v = some {s with reg := s.reg.set a v} :=
    reg_write_some_iff.mpr ⟨ha, rfl⟩
  have hreada : reg_read {s with reg := s.reg.set a v} a = some v := by
    show (s.reg.set a v)[a]? = some v
    exact List.getElem?_set_eq_of_lt v ha
  by_cases hane : a = SP
  · subst hane
    by_cases hvlt : v < STACK_HEAD
    · have hw2 : reg_write {s with reg := s.reg.set SP v} SP (v + 1) =
          some {s with reg := (s.reg.set SP v).set SP (v + 1)} :=
        reg_write_some_iff.mpr ⟨by simpa using ha, rfl⟩
      refine ⟨{s with reg := (s.reg.set SP v).set SP (v + 1)}, ?_,
        fun hne => absurd rfl hne, fun _ => ?_⟩
      · unfold opPop
        simp only [hsp, hram, hw, hreada, hw2, if_pos hvlt]
      · rw [if_pos hvlt]
        show ((s.reg.set SP v).set SP (v + 1))[SP]? = some (v + 1)
        exact List.getElem?_set_eq_of_lt (v + 1) (by simpa using ha)
    · refine ⟨{s with reg := s.reg.set SP v}, ?_,
        fun hne => absurd rfl hne, fun _ => ?_⟩
      · unfold opPop
        simp only [hsp, hram, hw, hreada, if_neg hvlt]
      · rw [if_neg hvlt]
        exact hreada
  · have h1 : reg_read {s with reg := s.reg.set a v} SP = some sp := by
      show (s.reg.set a v)[SP]? = some sp
      rw [List.getElem?_set_ne hane]
      exact hsp
    by_cases hslt : sp < STACK_HEAD
    · have hw2 : reg_write {s with reg := s.reg.set a v} SP (sp + 1) =
          some {s with reg := (s.reg.set a v).set SP (sp + 1)} :=
        reg_write_some_iff.mpr ⟨by simpa using hsplen, rfl⟩
      refine ⟨{s with reg := (s.reg.set a v).set SP (sp + 1)}, ?_,
        fun _ => ⟨?_, ?_⟩, fun heq => absurd heq hane⟩
      · unfold opPop
        simp only [hsp, hram, hw, h1, hw2, if_pos hslt]
      · show ((s.reg.set a v).set SP (sp + 1))[a]? = some v
        rw [List.getElem?_set_ne (Ne.symm hane)]
        exact List.getElem?_set_eq_of_lt v ha
      · rw [if_pos hslt]
        show ((s.reg.set a v).set SP (sp + 1))[SP]? = some (sp + 1)
        exact List.getElem?_set_eq_of_lt (sp + 1) (by simpa using hsplen)
    · refine ⟨{s with reg := s.reg.set a v}, ?_,
        fun _ => ⟨?_, ?_⟩, fun heq => absurd heq hane⟩
      · unfold opPop
        simp only [hsp, hram, hw, h1, if_neg hslt]
      · exact hreada
      · rw [if_neg hslt]
        exact h1

lemma ram_read_emit {s : CPUState} {e : Evt} {i : Nat} :
    ram_read (emit s e) i = ram_read s i := rfl

lemma opPush_ok {s : CPUState} {a sp k v : Nat} (opb : Nat)
    (hsp : reg_read s SP = some sp) (hk : reg_read s PROGRAM_END = some k)
    (hge : k + 1 ≤ sp)
    (hv : reg_read {s with reg := s.reg.set SP (sp - 1)} a = some v)
    (hram : sp ≤ s.ram.length) :
    opPush s a opb = .ok {s with reg := s.reg.set SP (sp - 1),
                                 ram := s.ram.set (sp - 1) v} := by
  have hsplen : SP < s.reg.length := reg_read_lt hsp
  have hguard : (sp : Int) - 1 ≥ (k : Int) := by omega
  have hw : reg_write s SP (sp - 1) =
      some {s with reg := s.reg.set SP (sp - 1)} :=
    reg_write_some_iff.mpr ⟨hsplen, rfl⟩
  have hrw : ram_write {s with reg := s.reg.set SP (sp - 1)} (sp - 1) v =
      some {s with reg := s.reg.set SP (sp - 1),
                   ram := s.ram.set (sp - 1) v} := by
    apply ram_write_some_iff.mpr
    refine ⟨?_, rfl⟩
    show sp - 1 < s.ram.length
    omega
  unfold opPush
  simp only [hsp, hk, if_pos hguard, hw, hv, hrw]

lemma opPush_overflow {s : CPUState} {a opb sp k : Nat}
    (hsp : reg_read s SP = some sp) (hk : reg_read s PROGRAM_END = some k)
    (hlt : sp < k + 1) (hpc : s.pc + 2 < s.ram.length)
    (hreg : 8 ≤ s.reg.length) :
    ∃ b0 b1 b2, ram_read s s.pc = some b0 ∧
      ram_read s (s.pc + 1) = some b1 ∧ ram_read s (s.pc + 2) = some b2 ∧
      opPush s a opb = .exited STACK_OVERFLOW
        (shutdownState (emit (emit s .stackOverflowMsg)
          (.traceLine s.pc b0 b1 b2 (s.reg.take 8)))) := by
  have hguard : ¬ ((sp : Int) - 1 ≥ (k : Int)) := by omega
  obtain ⟨b0, h0⟩ : ∃ b0, ram_read s s.pc = some b0 :=
    ⟨_, List.getElem?_eq_getElem (by omega)⟩
  obtain ⟨b1, h1⟩ : ∃ b1, ram_read s (s.pc + 1) = some b1 :=
    ⟨_, List.getElem?_eq_getElem (by omega)⟩
  obtain ⟨b2, h2⟩ : ∃ b2, ram_read s (s.pc + 2) = some b2 :=
    ⟨_, List.getElem?_eq_getElem (by omega)⟩
  refine ⟨b0, b1, b2, h0, h1, h2, ?_⟩
  have htr : trace (emit s .stackOverflowMsg) =
      some (emit (emit s .stackOverflowMsg)
        (.traceLine s.pc b0 b1 b2 (s.reg.take 8))) := by
    unfold trace
    rw [show (emit s .stackOverflowMsg).pc = s.pc from rfl]
    simp only [ram_read_emit, h0, h1, h2, Option.bind_eq_bind,
      Option.some_bind]
    rw [show (emit s .stackOverflowMsg).reg = s.reg from rfl, if_pos hreg]
  unfold opPush
  simp only [hsp, hk, if_neg hguard, htr]

/-- C3: in a state whose program-end register holds `k`, a PUSH with
`SP - 1 ≥ k` decrements SP by 1 and stores the pushed register's value
at the new `ram[SP]`; a PUSH with `SP - 1 < k` prints the
Stack-Overflow diagnostic, dumps a state trace and shuts the process
down with exit status 3, without returning to the caller. -/
theorem push_boundary (s : CPUState) (a opb sp k : Nat)
    (hsp : reg_read s SP = some sp) (hk : reg_read s PROGRAM_END = some k) :
    (k + 1 ≤ sp → a < s.reg.length → sp ≤ s.ram.length →
      ∃ s' v, opPush s a opb = .ok s' ∧
        reg_read s' SP = some (sp - 1) ∧ ram_read s' (sp - 1) = some v ∧
        (a ≠ SP → reg_read s a = some v)) ∧
    (sp < k + 1 → s.pc + 2 < s.ram.length → 8 ≤ s.reg.length →
      ∃ b0 b1 b2, ram_read s s.pc = some b0 ∧
        ram_read s (s.pc + 1) = some b1 ∧ ram_read s (s.pc + 2) = some b2 ∧
        opPush s a opb = .exited STACK_OVERFLOW
          (shutdownState (emit (emit s .stackOverflowMsg)
            (.traceLine s.pc b0 b1 b2 (s.reg.take 8))))) := by
  constructor
  · intro hge ha hram
    obtain ⟨v, hv⟩ :
        ∃ v, reg_read {s with reg := s.reg.set SP (sp - 1)} a = some v := by
      show ∃ v, (s.reg.set SP (sp - 1))[a]? = some v
      exact ⟨_, List.getElem?_eq_getElem (by simpa using ha)⟩
    refine ⟨_, v, opPush_ok opb hsp hk hge hv hram, ?_, ?_, ?_⟩
    · show (s.reg.set SP (sp - 1))[SP]? = some (sp - 1)
      exact List.getElem?_set_eq_of_lt _ (reg_read_lt hsp)
    · show (s.ram.set (sp - 1) v)[sp - 1]? = some v
      exact List.getElem?_set_eq_of_lt _ (by omega)
    · intro hane
      have hv' : (s.reg.set SP (sp - 1))[a]? = some v := hv
      rw [List.getElem?_set_ne (Ne.symm hane)] at hv'
      exact hv'
  · intro hlt hpc hreg
    exact opPush_overflow hsp hk hlt hpc hreg

set_option maxRecDepth 8000 in
/-- Witness for C3: a successful PUSH from the fresh state
(`sp = 0xF4`, `k = 0`) and an overflowing PUSH in a state with
`k = 250`, `sp = 0xF4`. -/
theorem push_boundary_witness :
    (∃ s' v, opPush stackState 0 0 = .ok s' ∧
      reg_read s' SP = some (244 - 1) ∧ ram_read s' (244 - 1) = some v ∧
      ((0 : Nat) ≠ SP → reg_read stackState 0 = some v)) ∧
    (∃ b0 b1 b2, ram_read stackOverState stackOverState.pc = some b0 ∧
      ram_read stackOverState (stackOverState.pc + 1) = some b1 ∧
      ram_read stackOverState (stackOverState.pc + 2) = some b2 ∧
      opPush stackOverState 0 0 = .exited STACK_OVERFLOW
        (shutdownState (emit (emit stackOverState .stackOverflowMsg)
          (.traceLine stackOverState.pc b0 b1 b2
            (stackOverState.reg.take 8))))) := by
  constructor
  · exact (push_boundary stackState 0 0 244 0 (by decide) (by decide)).1
      (by decide) (by decide) (by decide)
  · exact (push_boundary stackOverState 0 0 244 250 (by decide) (by decide)).2
      (by decide) (by decide) (by decide)

/-- C4: after each successfully executed instruction the new pc is
fully determined by the opcode encoding and the handler contracts:
when bit 4 of the opcode ("PC already set") is 0, pc advances by
1 + the operand count encoded in bits 7-6 (so a 2-operand instruction
at p leaves pc = p+3, a 1-operand p+2, a 0-operand p+1); JMP sets
pc = reg[regA] exactly with no extra advancement; JEQ sets
pc = reg[regA] when the Equal flag is set and pc = p+2 otherwise; JNE
is symmetric on the Equal flag being clear. -/
theorem pc_advancement :
    (∀ (s s' : CPUState) (ir : Nat), ram_read s s.pc = some ir →
      ir ∈ registeredOps → (ir >>> OP_SETS_INST) &&& ONE_BIT = 0 →
      step s = .ok s' → s'.pc = s.pc + 1 + (ir >>> NUM_OPERANDS)) ∧
    (∀ (s s' : CPUState) (opa t : Nat), ram_read s s.pc = some JMP →
      ram_read s (s.pc + 1) = some opa → reg_read s opa = some t →
      step s = .ok s' → s'.pc = t) ∧
    (∀ (s s' : CPUState) (opa t : Nat), ram_read s s.pc = some JEQ →
      ram_read s (s.pc + 1) = some opa → reg_read s opa = some t →
      step s = .ok s' →
      s'.pc = if s.fl &&& FL_EQ ≠ 0 then t else s.pc + 2) ∧
    (∀ (s s' : CPUState) (opa t : Nat), ram_read s s.pc = some JNE →
      ram_read s (s.pc + 1) = some opa → reg_read s opa = some t →
      step s = .ok s' →
      s'.pc = if s.fl &&& FL_EQ = 0 then t else s.pc + 2) := by
  refine ⟨?_, ?_, ?_, ?_⟩
  · intro s s' ir h0 hmem hbit hstep
    cases h1 : ram_read s (s.pc + 1) with
    | none =>
      unfold step at hstep
      simp only [h0, h1] at hstep
      exact Res.noConfusion hstep
    | some opa =>
    cases h2 : ram_read s (s.pc + 2) with
    | none =>
      unfold step at hstep
      simp only [h0, h1, h2] at hstep
      exact Res.noConfusion hstep
    | some opb =>
    obtain ⟨handler, hp⟩ :=
      Option.isSome_iff_exists.mp ((perform_op_mem ir).mpr hmem)
    obtain ⟨s1, s2, htr, hh, rfl⟩ := step_ok_elim h0 h1 h2 hp hstep
    rw [to_next_pc0 hbit,
      registered_nonjump_pc ir hmem hbit handler hp s1 opa opb s2 hh,
      (trace_frame htr).1]
    omega
  · intro s s' opa t h0 h1 hreg hstep
    cases h2 : ram_read s (s.pc + 2) with
    | none =>
      unfold step at hstep
      simp only [h0, h1, h2] at hstep
      exact Res.noConfusion hstep
    | some opb =>
    obtain ⟨s1, s2, htr, hh, hs'⟩ := step_ok_elim h0 h1 h2
      (show perform_op JMP = some opJmp from rfl) hstep
    rw [hs', to_next_pc1 JMP (by decide)]
    unfold opJmp at hh
    have hreg1 : reg_read s1 opa = some t := by
      unfold reg_read
      rw [(trace_frame htr).2.1]
      exact hreg
    simp only [hreg1] at hh
    cases Res.ok.inj hh
    rfl
  · intro s s' opa t h0 h1 hreg hstep
    cases h2 : ram_read s (s.pc + 2) with
    | none =>
      unfold step at hstep
      simp only [h0, h1, h2] at hstep
      exact Res.noConfusion hstep
    | some opb =>
    obtain ⟨s1, s2, htr, hh, hs'⟩ := step_ok_elim h0 h1 h2
      (show perform_op JEQ = some opJeq from rfl) hstep
    rw [hs', to_next_pc1 JEQ (by decide)]
    unfold opJeq at hh
    have hreg1 : reg_read s1 opa = some t := by
      unfold reg_read
      rw [(trace_frame htr).2.1]
      exact hreg
    rw [(trace_frame htr).2.2.2.1] at hh
    by_cases hfl : s.fl &&& FL_EQ ≠ 0
    · rw [if_pos hfl]
      rw [if_pos hfl] at hh
      simp only [hreg1] at hh
      cases Res.ok.inj hh
      rfl
    · rw [if_neg hfl]
      rw [if_neg hfl] at hh
      cases Res.ok.inj hh
      show s1.pc + 2 = s.pc + 2
      rw [(trace_frame htr).1]
  · intro s s' opa t h0 h1 hreg hstep
    cases h2 : ram_read s (s.pc + 2) with
    | none =>
      unfold step at hstep
      simp only [h0, h1, h2] at hstep
      exact Res.noConfusion hstep
    | some opb =>
    obtain ⟨s1, s2, htr, hh, hs'⟩ := step_ok_elim h0 h1 h2
      (show perform_op JNE = some opJne from rfl) hstep
    rw [hs', to_next_pc1 JNE (by decide)]
    unfold opJne at hh
    have hreg1 : reg_read s1 opa = some t := by
      unfold reg_read
      rw [(trace_frame htr).2.1]
      exact hreg
    rw [(trace_frame htr).2.2.2.1] at hh
    by_cases hfl : s.fl &&& FL_EQ = 0
    · rw [if_pos hfl]
      rw [if_pos hfl] at hh
      simp only [hreg1] at hh
      cases Res.ok.inj hh
      rfl
    · rw [if_neg hfl]
      rw [if_neg hfl] at hh
      cases Res.ok.inj hh
      show s1.pc + 2 = s.pc + 2
      rw [(trace_frame htr).1]

set_option maxRecDepth 8000 in
/-- Witness for C4: the 2-operand `LDI` at pc 0 advances pc to 3; a
taken `JMP R0` with `reg[0] = 5` lands exactly on pc 5; a taken `JEQ`
with the Equal flag set lands on pc 5; a taken `JNE` with the flag
clear lands on pc 5. -/
theorem pc_advancement_witness :
    (∃ s', step runningHlt = .ok s' ∧
      s'.pc = runningHlt.pc + 1 + (LDI >>> NUM_OPERANDS)) ∧
    (∃ s', step jmpState = .ok s' ∧ s'.pc = 5) ∧
    (∃ s', step jeqState = .ok s' ∧
      s'.pc = if jeqState.fl &&& FL_EQ ≠ 0 then 5 else jeqState.pc + 2) ∧
    (∃ s', step jneState = .ok s' ∧
      s'.pc = if jneState.fl &&& FL_EQ = 0 then 5 else jneState.pc + 2) := by
  refine ⟨?_, ?_, ?_, ?_⟩
  · have hok : resIsOk (step runningHlt) = true := by decide
    cases h : step runningHlt with
    | ok s' =>
      exact ⟨s', rfl, pc_advancement.1 runningHlt s' LDI (by decide)
        (by decide) (by decide) h⟩
    | crash s0 => rw [h] at hok; exact Bool.noConfusion hok
    | exited c s0 => rw [h] at hok; exact Bool.noConfusion hok
  · have hok : resIsOk (step jmpState) = true := by decide
    cases h : step jmpState with
    | ok s' =>
      exact ⟨s', rfl, pc_advancement.2.1 jmpState s' 0 5 (by decide)
        (by decide) (by decide) h⟩
    | crash s0 => rw [h] at hok; exact Bool.noConfusion hok
    | exited c s0 => rw [h] at hok; exact Bool.noConfusion hok
  · have hok : resIsOk (step jeqState) = true := by decide
    cases h : step jeqState with
    | ok s' =>
      exact ⟨s', rfl, pc_advancement.2.2.1 jeqState s' 0 5 (by decide)
        (by decide) (by decide) h⟩
    | crash s0 => rw [h] at hok; exact Bool.noConfusion hok
    | exited c s0 => rw [h] at hok; exact Bool.noConfusion hok
  · have hok : resIsOk (step jneState) = true := by decide
    cases h : step jneState with
    | ok s' =>
      exact ⟨s', rfl, pc_advancement.2.2.2 jneState s' 0 5 (by decide)
        (by decide) (by decide) h⟩
    | crash s0 => rw [h] at hok; exact Bool.noConfusion hok
    | exited c s0 => rw [h] at hok; exact Bool.noConfusion hok

lemma runLoop_succ (fuel : Nat) (s : CPUState) :
    runLoop (fuel + 1) s =
      if s.is_running then
        match step s with
        | .ok s' => runLoop fuel s'
        | .crash s' => .crash s'
        | .exited c s' => .exited c s'
      else .exited DONE (shutdownState s) := rfl

/-- C5: the dispatch table registers exactly the seventeen opcodes
LDI, PRN, HLT, PUSH, POP, JMP, JEQ, JNE, ADD, MUL, CMP, AND, OR, XOR,
NOT, SHL, SHR; an iteration that fetches an unregistered opcode
reports the offending opcode value and exits with status 1; a clean
halt via HLT leaves the loop and exits with status 0. -/
theorem unknown_instruction_and_halt :
    (∀ ir : Nat, (perform_op ir).isSome ↔ ir ∈ registeredOps) ∧
    (∀ (s : CPUState) (ir opa opb : Nat), ram_read s s.pc = some ir →
      ram_read s (s.pc + 1) = some opa → ram_read s (s.pc + 2) = some opb →
      ir ∉ registeredOps →
      step s = .exited UNKNOWN_INSTRUCTION
        (shutdownState (emit s (.unknownMsg ir)))) ∧
    (∀ (s : CPUState) (fuel : Nat), s.is_running = true →
      ram_read s s.pc = some HLT → (ram_read s (s.pc + 1)).isSome →
      (ram_read s (s.pc + 2)).isSome → 8 ≤ s.reg.length →
      ∃ sfin, runLoop (fuel + 2) s = .exited DONE sfin) := by
  refine ⟨perform_op_mem, ?_, ?_⟩
  · intro s ir opa opb h0 h1 h2 hmem
    have hp : perform_op ir = none := by
      cases hcase : perform_op ir with
      | none => rfl
      | some handler =>
        exact absurd ((perform_op_mem ir).mp (by rw [hcase]; rfl)) hmem
    unfold step
    simp only [h0, h1, h2, hp]
  · intro s fuel hrun h0 h1 h2 hreg
    obtain ⟨b1, hb1⟩ := Option.isSome_iff_exists.mp h1
    obtain ⟨b2, hb2⟩ := Option.isSome_iff_exists.mp h2
    have htr : trace s =
        some (emit s (.traceLine s.pc HLT b1 b2 (s.reg.take 8))) := by
      unfold trace
      simp only [h0, hb1, hb2, Option.bind_eq_bind, Option.some_bind]
      rw [if_pos hreg]
    have hstep : step s = .ok (to_next_instruction
        {emit s (.traceLine s.pc HLT b1 b2 (s.reg.take 8)) with
          is_running := false} HLT) := by
      unfold step
      simp only [h0, hb1, hb2, show perform_op HLT = some opHlt from rfl,
        htr]
      rfl
    refine ⟨shutdownState (to_next_instruction
      {emit s (.traceLine s.pc HLT b1 b2 (s.reg.take 8)) with
        is_running := false} HLT), ?_⟩
    rw [show fuel + 2 = (fuel + 1) + 1 from rfl]
    rw [runLoop_succ]
    rw [if_pos hrun, hstep]
    show runLoop (fuel + 1) (to_next_instruction
      {emit s (.traceLine s.pc HLT b1 b2 (s.reg.take 8)) with
        is_running := false} HLT) = _
    rw [runLoop_succ]
    rw [if_neg (by rw [to_next_is_running]; exact Bool.noConfusion)]

set_option maxRecDepth 8000 in
/-- Witness for C5: opcode `0` (NOP) is unregistered and makes the
loop exit with status 1; running the loop on `HLT` exits with
status 0. -/
theorem unknown_instruction_and_halt_witness :
    ((perform_op 0).isSome ↔ (0 : Nat) ∈ registeredOps) ∧
    (step stackState = .exited UNKNOWN_INSTRUCTION
      (shutdownState (emit stackState (.unknownMsg 0)))) ∧
    (∃ sfin, runLoop 2 hltAtPc = .exited DONE sfin) := by
  refine ⟨unknown_instruction_and_halt.1 0, ?_, ?_⟩
  · exact unknown_instruction_and_halt.2.1 stackState 0 0 0 (by decide)
      (by decide) (by decide) (by decide)
  · exact unknown_instruction_and_halt.2.2 hltAtPc 0 (by decide)
      (by decide) (by decide) (by decide) (by decide)

/-- C9 (amended): whenever `pc + 2 ≤ 255`, the run loop's three
unconditional fetches at `pc`, `pc+1`, `pc+2` all succeed and return
the bytes residing in memory, even past the loaded program. -/
theorem fetch_in_bounds (s : CPUState) (hlen : s.ram.length = 256)
    (hpc : s.pc + 2 < 256) :
    ∃ b0 b1 b2, ram_read s s.pc = some b0 ∧
      ram_read s (s.pc + 1) = some b1 ∧ ram_read s (s.pc + 2) = some b2 :=
  ⟨_, _, _, List.getElem?_eq_getElem (by omega),
    List.getElem?_eq_getElem (by omega),
    List.getElem?_eq_getElem (by omega)⟩

set_option maxRecDepth 8000 in
/-- Witness for the amended C9 at the loaded end-to-end program. -/
theorem fetch_in_bounds_witness :
    ∃ b0 b1 b2, ram_read hltProg hltProg.pc = some b0 ∧
      ram_read hltProg (hltProg.pc + 1) = some b1 ∧
      ram_read hltProg (hltProg.pc + 2) = some b2 :=
  fetch_in_bounds hltProg (by decide) (by decide)

set_option maxRecDepth 8000 in
/-- Counterexample for C9 as stated: running the loaded program
`LDI R0, 254 ; JMP R0` makes the loop run an iteration at `pc = 254`,
and the unconditional fetch of `ram[pc + 2] = ram[256]` fails (Python
raises `IndexError`), crashing the process instead of returning
memory contents. -/
theorem fetch_crash_cx :
    crashPc (run jmp254Prog 3) = some 254 ∧
    jmp254Prog.ram.length = 256 := by
  exact ⟨by decide, by decide⟩

set_option maxRecDepth 8000 in
/-- Counterexample for C6 as stated.  First: `PUSH R7` (the stack
pointer register itself) from the fresh state (`sp = 244`, `k = 0`)
followed by `POP R0` leaves `reg[0] = 243`, not the pre-PUSH
`reg[7] = 244` — the push stores the already-decremented SP.  Second:
from `sp = 245` (reachable by `LDI R7, 245`), `PUSH R0 ; POP R0`
returns the value but leaves `SP = 244`, not the pre-PUSH `245`,
because POP's increment saturates at `0xF4`. -/
theorem stack_roundtrip_cx :
    resReg (pushThenPop stackState 7 0) 0 = some 243 ∧
    reg_read stackState SP = some 244 ∧
    resReg (pushThenPop stackState245 0 0) 7 = some 244 ∧
    reg_read stackState245 SP = some 245 := by
  refine ⟨?_, by decide, ?_, by decide⟩
  · decide
  · decide

/-- C6 (amended): for operand registers other than the stack-pointer
register R7, starting from `sp ≤ 0xF4` (the invariant established at
construction), a boundary-respecting PUSH from `r` followed by POP
into `r'` restores the pushed value into `r'` and returns SP to its
pre-PUSH value. -/
theorem stack_roundtrip (s : CPUState) (r r' opb opb' sp k v : Nat)
    (hsp : reg_read s SP = some sp) (hk : reg_read s PROGRAM_END = some k)
    (hr' : r' < s.reg.length)
    (hrne : r ≠ SP) (hrne' : r' ≠ SP)
    (hge : k + 1 ≤ sp) (hle : sp ≤ STACK_HEAD) (hram : sp ≤ s.ram.length)
    (hv : reg_read s r = some v) :
    ∃ s1 s2, opPush s r opb = .ok s1 ∧ opPop s1 r' opb' = .ok s2 ∧
      reg_read s2 r' = some v ∧ reg_read s2 SP = some sp := by
  have hsplen := reg_read_lt hsp
  have hv1 : reg_read {s with reg := s.reg.set SP (sp - 1)} r = some v := by
    show (s.reg.set SP (sp - 1))[r]? = some v
    rw [List.getElem?_set_ne (Ne.symm hrne)]
    exact hv
  have hpush := opPush_ok opb hsp hk hge hv1 hram
  have hsp1 : reg_read
      {s with reg := s.reg.set SP (sp - 1), ram := s.ram.set (sp - 1) v}
      SP = some (sp - 1) := by
    show (s.reg.set SP (sp - 1))[SP]? = some (sp - 1)
    exact List.getElem?_set_eq_of_lt _ hsplen
  have hram1 : ram_read
      {s with reg := s.reg.set SP (sp - 1), ram := s.ram.set (sp - 1) v}
      (sp - 1) = some v := by
    show (s.ram.set (sp - 1) v)[sp - 1]? = some v
    exact List.getElem?_set_eq_of_lt _ (by omega)
  obtain ⟨s2, hpop, hne, _⟩ := pop_saturation
    {s with reg := s.reg.set SP (sp - 1), ram := s.ram.set (sp - 1) v}
    r' opb' (sp - 1) v hsp1 hram1 (by simpa using hr')
  obtain ⟨hval, hsp2⟩ := hne hrne'
  refine ⟨_, s2, hpush, hpop, hval, ?_⟩
  rw [hsp2, if_pos (show sp - 1 < STACK_HEAD by
    simp only [STACK_HEAD] at hle ⊢; omega)]
  exact congrArg some (by omega)

set_option maxRecDepth 8000 in
/-- Witness for the amended C6: `PUSH R0 ; POP R1` from the fresh
state (`reg[0] = 0`, `sp = 244`, `k = 0`). -/
theorem stack_roundtrip_witness :
    ∃ s1 s2, opPush stackState 0 0 = .ok s1 ∧ opPop s1 1 0 = .ok s2 ∧
      reg_read s2 1 = some 0 ∧ reg_read s2 SP = some 244 :=
  stack_roundtrip stackState 0 1 0 0 244 0 0 (by decide) (by decide)
    (by decide) (by decide) (by decide) (by decide) (by decide) (by decide)
    (by decide)

set_option maxRecDepth 8000 in
/-- Witness for C7: popping into R0 from the initial state
(`sp = 0xF4`, so SP does not move). -/
theorem pop_saturation_witness :
    ∃ s', opPop stackState 0 0 = .ok s' ∧
      ((0 : Nat) ≠ SP → reg_read s' 0 = some 0 ∧
        reg_read s' SP = some (if 244 < STACK_HEAD then 244 + 1 else 244)) ∧
      ((0 : Nat) = SP →
        reg_read s' SP = some (if 0 < STACK_HEAD then 0 + 1 else 0)) :=
  pop_saturation stackState 0 0 244 0 (by decide) (by decide) (by decide)

end LS8
